import Mathlib

/-!
Shallow embedding of the query-construction and pool-filtering core of the
ArXiv papers-matching repository.

The embedded functions:
* `filter_dataframe_by_pools` (src/filter_dataframe_by_pools.py): keeps the
  records whose title+summary text matches every pool's compiled pattern.
  The pattern built for a pool is the alternation, over the pool's terms, of
  `\b<escaped term>\b` where `re.escape` makes every character literal and
  each escaped space is then replaced by `\s+`; the pattern is compiled with
  `re.IGNORECASE`.  We embed the pattern's semantics directly: a term char
  that is a space matches one-or-more whitespace characters, every other
  term char matches itself case-insensitively, and `\b` is the usual word
  boundary (a position where exactly one neighbour is a word character).
* `build_arxiv_query` / `format_pool` (src/build_arxiv_query.py).
* `add_category_filter` (src/add_category_filter.py).

Records are rows with `title` and `summary` string fields; the DataFrame is
a list of records, `df[mask].reset_index(drop=True)` is `List.filter`, and
the `df.empty` fast path is the `isEmpty` branch.  A second record type with
optional fields (`RawRecord`) models rows where a field access can raise
`KeyError`, for the error-handling claims.
-/

namespace ArxivMatching

/-- Word character for the pattern language's word boundary: ASCII letter,
digit or underscore (the ASCII core of `\w`). -/
def isWordChar (c : Char) : Bool :=
  c.isAlpha || c.isDigit || c = '_'

/-- Whitespace character recognised by the pattern's `\s` class
(space, tab, newline, carriage return, vertical tab, form feed). -/
def isSpaceChar (c : Char) : Bool :=
  c = ' ' || c = '\t' || c = '\n' || c = '\r' || c = '\x0b' || c = '\x0c'

/-- Case-insensitive single-character match (the effect of compiling the
escaped term with the ignore-case flag). -/
def charMatch (p c : Char) : Bool :=
  p.toLower = c.toLower

/-- All ways `\s+` (one-or-more whitespace) can consume a prefix of `text`:
the list of possible remaining suffixes. -/
def matchSpaces : List Char → List (List Char)
  | [] => []
  | c :: rest => if isSpaceChar c then rest :: matchSpaces rest else []

/-- All ways the escaped term can consume a prefix of `text`: a space in the
term was turned into `\s+`, every other character is matched literally and
case-insensitively.  Returns the possible remaining suffixes. -/
def matchTermFrom : List Char → List Char → List (List Char)
  | [], text => [text]
  | p :: ps, text =>
    if p = ' ' then
      (matchSpaces text).flatMap (fun r => matchTermFrom ps r)
    else
      match text with
      | [] => []
      | c :: rest => if charMatch p c then matchTermFrom ps rest else []

/-- Whether the first character of a suffix is a word character (false at
end of text). -/
def headIsWord : List Char → Bool
  | [] => false
  | c :: _ => isWordChar c

/-- Wordness of the last character of a list (false when empty).  For the
term this is the wordness of the last character the pattern consumes: a
space in the term consumes whitespace (never a word character, like the
space itself), and case-insensitive matching preserves wordness. -/
def lastIsWord : List Char → Bool
  | [] => false
  | [c] => isWordChar c
  | _ :: c :: rest => lastIsWord (c :: rest)

/-- Whether the pattern `\b<term>\b` matches starting at the current
position, where `prevW` says whether the character just before the position
is a word character.  For the empty term the two boundary assertions
collapse into one. -/
def matchAt (term : List Char) (prevW : Bool) (text : List Char) : Bool :=
  match term with
  | [] => prevW != headIsWord text
  | p :: _ =>
    (prevW != (if p = ' ' then false else isWordChar p)) &&
      (matchTermFrom term text).any (fun r => lastIsWord term != headIsWord r)

/-- Scan of `re.search`: try the pattern at every position of `text`,
threading the wordness of the previous character. -/
def searchAux (term : List Char) (prevW : Bool) (text : List Char) : Bool :=
  matchAt term prevW text ||
    match text with
    | [] => false
    | c :: rest => searchAux term (isWordChar c) rest

/-- Whether the compiled pattern for a single term finds a match anywhere in
`text` (positions start at the beginning of the text, where the previous
character is absent, hence not a word character). -/
def searchTerm (term : List Char) (text : List Char) : Bool :=
  searchAux term false text

/-- Wordness of the character preceding the current scan position, after
the scan has consumed the prefix `u`: the wordness of the last character of
`u`, or the initial value when nothing was consumed.  Used to relate the
scan `searchAux` to an explicit decomposition of the text. -/
def prevWordAfter (pw : Bool) (u : List Char) : Bool :=
  match u with
  | [] => pw
  | c :: u' => prevWordAfter (isWordChar c) u'

/-- Search with the pool's compiled pattern: the alternation of the term
patterns.  An empty pool compiles to the pattern `()`, which matches the
empty string at position 0, so it matches any text. -/
def poolSearch (pool : List String) (text : List Char) : Bool :=
  pool.isEmpty || pool.any (fun t => searchTerm t.data text)

/-- DataFrame row with the two columns the filter reads. -/
structure Record where
  title : String
  summary : String
deriving DecidableEq, Repr

/-- Text the filter scans for one row: `f"{row['title']} {row['summary']}"`. -/
def rowText (r : Record) : List Char :=
  (r.title ++ " " ++ r.summary).data

/-- Body of `row_matches`: every pool's pattern finds a match in the row's
title+summary text. -/
def row_matches (pools : List (List String)) (r : Record) : Bool :=
  pools.all (fun pool => poolSearch pool (rowText r))

/-- Embedding of `filter_dataframe_by_pools`: early return on an empty
frame, otherwise keep exactly the rows whose mask entry is true, in order. -/
def filter_dataframe_by_pools (records : List Record)
    (pools : List (List String)) : List Record :=
  if records.isEmpty then records
  else records.filter (row_matches pools)

/-- Term formatting inside `format_pool`: put quotes only if the term has a
space (`" " in term` in Python is containment of the space character). -/
def quoteTerm (term : String) : String :=
  if term.data.contains ' ' then "\"" ++ term ++ "\"" else term

/-- Embedding of `format_pool`: format each term and join with OR. -/
def format_pool (pool : List String) : String :=
  String.intercalate " OR " (pool.map quoteTerm)

/-- Embedding of `build_arxiv_query`: per-pool group searching title and
abstract, all groups joined with AND. -/
def build_arxiv_query (pools : List (List String)) : String :=
  String.intercalate " AND "
    (pools.map (fun pool =>
      "(ti:(" ++ format_pool pool ++ ") OR abs:(" ++ format_pool pool ++ "))"))

/-- Embedding of `add_category_filter`. -/
def add_category_filter (query : String) (categories : List String) : String :=
  "(" ++ query ++ ") AND cat:(" ++ String.intercalate " OR " categories ++ ")"

/-- DataFrame row in which a column value may be absent, to model the
`KeyError` a row access raises when `title` or `summary` is missing. -/
structure RawRecord where
  title : Option String
  summary : Option String
deriving DecidableEq, Repr

/-- Evaluation of `f"{row['title']} {row['summary']}"` on a row that may
lack a field: `row['title']` is read first, so a missing title raises
before a missing summary. -/
def rawText : RawRecord → Except String (List Char)
  | ⟨none, _⟩ => .error "KeyError: title"
  | ⟨some _, none⟩ => .error "KeyError: summary"
  | ⟨some t, some s⟩ => .ok (t ++ " " ++ s).data

/-- Row predicate of the filter on a possibly-malformed row: the `KeyError`
from the text construction propagates. -/
def row_matchesE (pools : List (List String)) (r : RawRecord) :
    Except String Bool :=
  match rawText r with
  | .error e => .error e
  | .ok text => .ok (pools.all (fun pool => poolSearch pool text))

/-- Evaluation of `df.apply(row_matches, axis=1)`: the rows are evaluated
in order and the first exception propagates, aborting the whole
computation of the mask. -/
def applyRows (pools : List (List String)) :
    List RawRecord → Except String (List Bool)
  | [] => .ok []
  | r :: rest =>
    match row_matchesE pools r with
    | .error e => .error e
    | .ok b =>
      match applyRows pools rest with
      | .error e => .error e
      | .ok bs => .ok (b :: bs)

/-- Embedding of `filter_dataframe_by_pools` over possibly-malformed rows:
empty frames return early (no row is ever evaluated); otherwise the mask is
computed for every row and any `KeyError` aborts the whole call. -/
def filterE (records : List RawRecord) (pools : List (List String)) :
    Except String (List RawRecord) :=
  if records.isEmpty then .ok records
  else
    match applyRows pools records with
    | .error e => .error e
    | .ok mask => .ok (((records.zip mask).filter (fun p => p.2)).map Prod.fst)

/-- Concrete five-record frame for the order-preservation example: with
pool `["RL"]`, exactly the first and the fourth record match. -/
def rec1 : Record := ⟨"paper one", "We study RL agents"⟩

/-- Second example record; `GIRL` contains `RL` only as a sub-token. -/
def rec2 : Record := ⟨"paper two", "We study GIRL power"⟩

/-- Third example record, with no occurrence of the term at all. -/
def rec3 : Record := ⟨"paper three", "nothing of interest here"⟩

/-- Fourth example record, a second whole-word match. -/
def rec4 : Record := ⟨"paper four", "deep RL methods"⟩

/-- Fifth example record, again only a sub-token occurrence. -/
def rec5 : Record := ⟨"paper five", "girl power again"⟩

/-- Record whose summary contains the multi-word term with extra internal
spaces. -/
def recSpaced : Record := ⟨"t", "about reinforcement   learning here"⟩

/-- Record whose summary contains the multi-word term with different
capitalisation. -/
def recCased : Record := ⟨"t", "about Reinforcement Learning here"⟩

/-- Well-formed row for the missing-field scenario: both columns present
and the summary matches pool `["RL"]`. -/
def goodRaw : RawRecord := ⟨some "t1", some "We study RL agents"⟩

/-- Malformed row: the `summary` column is missing, so evaluating the row
raises `KeyError: summary`. -/
def badRaw : RawRecord := ⟨some "t2", none⟩

theorem filter_dataframe_by_pools_eq_filter (records : List Record)
    (pools : List (List String)) :
    filter_dataframe_by_pools records pools = records.filter (row_matches pools) := by
  cases records with
  | nil => rfl
  | cons a l => rfl

/-- C1: for every record list and every pool set, the filter returns a
subsequence of the input (order preserved, no duplication), a record
survives iff it is an input record satisfying every pool, filtering the
empty collection returns it unchanged, and on the concrete 5-record frame
where records 1 and 4 match pool `["RL"]` the result is `[rec1, rec4]` in
that order. -/
theorem C1_filter_is_order_preserving_subsequence :
    (∀ (records : List Record) (pools : List (List String)),
        (filter_dataframe_by_pools records pools).Sublist records
        ∧ ∀ r : Record, r ∈ filter_dataframe_by_pools records pools ↔
            r ∈ records ∧ row_matches pools r = true)
    ∧ (∀ pools : List (List String), filter_dataframe_by_pools [] pools = [])
    ∧ filter_dataframe_by_pools [rec1, rec2, rec3, rec4, rec5] [["RL"]] = [rec1, rec4] := by
  refine ⟨fun records pools => ⟨?_, fun r => ?_⟩, fun pools => rfl, by decide⟩
  · rw [filter_dataframe_by_pools_eq_filter]
    exact List.filter_sublist _
  · rw [filter_dataframe_by_pools_eq_filter]
    simp [List.mem_filter]

/-- C3: the query for pools `[["A","B"],["C"]]` is the AND of two groups,
the first containing `A OR B` inside both a `ti:` and an `abs:` clause;
and in general the query is the AND-join over pools of the group
`(ti:(<pool-OR>) OR abs:(<pool-OR>))`. -/
theorem C3_query_and_or_structure :
    build_arxiv_query [["A","B"],["C"]]
      = "(ti:(A OR B) OR abs:(A OR B)) AND (ti:(C) OR abs:(C))"
    ∧ ∀ pools : List (List String),
        build_arxiv_query pools = String.intercalate " AND "
          (pools.map (fun pool =>
            "(ti:(" ++ format_pool pool ++ ") OR abs:(" ++ format_pool pool ++ "))")) :=
  ⟨by decide, fun pools => rfl⟩

/-- C5 counterexample: the term with an internal tab contains whitespace,
yet it is emitted without quotes, refuting "quoted iff the term contains
whitespace" — the code tests only for the space character. -/
theorem C5_counterexample_tab_term_unquoted :
    ("a\tb").data.any (fun c => isSpaceChar c) = true
    ∧ format_pool ["a\tb"] = "a\tb"
    ∧ build_arxiv_query [["a\tb"]] = "(ti:(a\tb) OR abs:(a\tb))" := by
  decide

/-- C5 amended: a term is wrapped in double quotes iff it contains a space
character (U+0020); `large language model` is quoted and `RL` is not. -/
theorem C5_amended_quote_iff_space :
    (∀ term : String, quoteTerm term
        = if term.data.contains ' ' then "\"" ++ term ++ "\"" else term)
    ∧ build_arxiv_query [["large language model","RL"]]
      = "(ti:(\"large language model\" OR RL) OR abs:(\"large language model\" OR RL))" :=
  ⟨fun term => rfl, by decide⟩

/-- C6: appending the category restriction parenthesizes the incoming query
and appends `AND cat:(...)` with the categories OR-joined; categories
`cs.*` and `stat.*` produce `cat:(cs.* OR stat.*)`. -/
theorem C6_category_filter_format :
    add_category_filter "Q" ["cs.*","stat.*"] = "(Q) AND cat:(cs.* OR stat.*)"
    ∧ ∀ (q : String) (cats : List String),
        add_category_filter q cats
          = "(" ++ q ++ ") AND cat:(" ++ String.intercalate " OR " cats ++ ")" :=
  ⟨by decide, fun q cats => rfl⟩

/-- C7 counterexample: neither component rejects malformed pools. An empty
pool is silently accepted by the query builder (empty OR group) and by the
filter (its pattern matches every row, so nothing is filtered); an empty
term and a whitespace-only term are silently pasted into the query. -/
theorem C7_counterexample_no_validation :
    build_arxiv_query [[]] = "(ti:() OR abs:())"
    ∧ filter_dataframe_by_pools [rec1] [[]] = [rec1]
    ∧ filter_dataframe_by_pools [rec1, rec2, rec3, rec4, rec5] [[""]]
      = [rec1, rec2, rec3, rec4, rec5]
    ∧ build_arxiv_query [["", "  "]] = "(ti:( OR \"  \") OR abs:( OR \"  \"))" := by
  decide

/-- C7 amended: there is no construction-time validation anywhere; both
functions are total, an empty pool's pattern matches every text (so the
pool is vacuous in the filter) and the query builder emits an empty group
for it. -/
theorem C7_amended_no_rejection :
    (∀ text : List Char, poolSearch [] text = true)
    ∧ (∀ records : List Record, filter_dataframe_by_pools records [[]] = records)
    ∧ build_arxiv_query [[]] = "(ti:() OR abs:())" := by
  refine ⟨fun text => rfl, fun records => ?_, by decide⟩
  rw [filter_dataframe_by_pools_eq_filter]
  exact List.filter_eq_self.mpr (fun r _ => rfl)

/-- C9: filtering a record list whose members all satisfy every pool (for
example the output of a previous call with the same pools) returns that
list unchanged. -/
theorem C9_filter_idempotent (pools : List (List String)) (records : List Record)
    (h : ∀ r ∈ records, row_matches pools r = true) :
    filter_dataframe_by_pools records pools = records := by
  rw [filter_dataframe_by_pools_eq_filter]
  exact List.filter_eq_self.mpr h

/-- Witness for C9 at a concrete already-filtered list. -/
theorem C9_filter_idempotent_witness :
    filter_dataframe_by_pools [rec1, rec4] [["RL"]] = [rec1, rec4] :=
  C9_filter_idempotent [["RL"]] [rec1, rec4] (by decide)

theorem matchTermFrom_nospace_sound :
    ∀ (t text r : List Char), (∀ p ∈ t, p ≠ ' ') → r ∈ matchTermFrom t text →
      ∃ m, text = m ++ r ∧ List.Forall₂ (fun p c => charMatch p c = true) t m := by
  intro t
  induction t with
  | nil =>
    intro text r _ hr
    simp only [matchTermFrom, List.mem_singleton] at hr
    exact ⟨[], by simp [hr], List.Forall₂.nil⟩
  | cons p ps ih =>
    intro text r hn hr
    have hp : p ≠ ' ' := hn p (by simp)
    cases text with
    | nil =>
      simp only [matchTermFrom] at hr
      rw [if_neg hp] at hr
      simp at hr
    | cons c rest =>
      simp only [matchTermFrom] at hr
      rw [if_neg hp] at hr
      by_cases hc : charMatch p c = true
      · rw [if_pos hc] at hr
        obtain ⟨m', hm', hf⟩ := ih rest r (fun q hq => hn q (by simp [hq])) hr
        exact ⟨c :: m', by simp [hm'], List.Forall₂.cons hc hf⟩
      · rw [if_neg hc] at hr
        simp at hr

theorem prevWordAfter_eq (u : List Char) :
    ∀ pw : Bool, prevWordAfter pw u = if u.isEmpty then pw else lastIsWord u := by
  induction u with
  | nil => intro pw; rfl
  | cons c u' ih =>
    intro pw
    rw [show prevWordAfter pw (c :: u') = prevWordAfter (isWordChar c) u' from rfl, ih]
    cases u' with
    | nil => simp [lastIsWord]
    | cons d u'' => simp [lastIsWord]

theorem prevWordAfter_false (u : List Char) :
    prevWordAfter false u = lastIsWord u := by
  rw [prevWordAfter_eq]
  cases u with
  | nil => rfl
  | cons c u' => simp

theorem searchAux_sound :
    ∀ (text t : List Char) (pw : Bool), searchAux t pw text = true →
      ∃ u v, text = u ++ v ∧ matchAt t (prevWordAfter pw u) v = true := by
  intro text
  induction text with
  | nil =>
    intro t pw h
    rw [searchAux] at h
    exact ⟨[], [], rfl, by simpa using h⟩
  | cons c rest ih =>
    intro t pw h
    rw [searchAux, Bool.or_eq_true] at h
    rcases h with h1 | h2
    · exact ⟨[], c :: rest, rfl, h1⟩
    · obtain ⟨u, v, huv, hm⟩ := ih t (isWordChar c) h2
      exact ⟨c :: u, v, by simp [huv], hm⟩

/-- C2: a space-free term matches only as a literal whole-word occurrence:
whenever the term's pattern finds a match, the text decomposes as
`u ++ m ++ v` where `m` matches the term character by character
case-insensitively (no character of the term acts as a pattern operator)
and a word boundary holds at both ends of the occurrence; consequently pool
`["RL"]` keeps the record whose summary is `We study RL agents` and rejects
the one whose summary is `We study GIRL power`, and the term `a.c` does not
match the text `abc` (its dot is literal, not a wildcard). -/
theorem C2_whole_word_literal_matching :
    (∀ (t text : List Char), t ≠ [] → (∀ p ∈ t, p ≠ ' ') →
        searchTerm t text = true →
        ∃ u m v, text = u ++ m ++ v
          ∧ List.Forall₂ (fun p c => charMatch p c = true) t m
          ∧ (lastIsWord u != headIsWord t) = true
          ∧ (lastIsWord t != headIsWord v) = true)
    ∧ filter_dataframe_by_pools [rec1, rec2] [["RL"]] = [rec1]
    ∧ searchTerm "a.c".data "x abc y".data = false
    ∧ searchTerm "a.c".data "x a.c y".data = true := by
  refine ⟨?_, by decide, by decide, by decide⟩
  intro t text ht hn hs
  obtain ⟨u, v, huv, hm⟩ := searchAux_sound text t false hs
  cases t with
  | nil => exact absurd rfl ht
  | cons p ps =>
    have hp : p ≠ ' ' := hn p (by simp)
    simp only [matchAt] at hm
    rw [if_neg hp, Bool.and_eq_true] at hm
    obtain ⟨hstart, hany⟩ := hm
    obtain ⟨r, hrmem, hrb⟩ := List.any_eq_true.mp hany
    obtain ⟨m, hmr, hf⟩ := matchTermFrom_nospace_sound (p :: ps) v r hn hrmem
    refine ⟨u, m, r, ?_, hf, ?_, hrb⟩
    · rw [huv, hmr, List.append_assoc]
    · rw [← prevWordAfter_false u]
      exact hstart

/-- Witness for the quantified part of C2 at the term `RL` and the text
`x RL y`. -/
theorem C2_whole_word_literal_matching_witness :
    ∃ u m v, "x RL y".data = u ++ m ++ v
      ∧ List.Forall₂ (fun p c => charMatch p c = true) "RL".data m
      ∧ (lastIsWord u != headIsWord "RL".data) = true
      ∧ (lastIsWord "RL".data != headIsWord v) = true :=
  C2_whole_word_literal_matching.1 "RL".data "x RL y".data (by decide)
    (by decide) (by decide)

/-- C4 counterexample: a tab is a whitespace character, and the term
`a<tab>b` contains it internally, yet the term does not match the text
`x a b y` — the code turns only space characters into one-or-more
whitespace, so "internal whitespace matches one-or-more whitespace
characters" is false for a tab, which matches only a literal tab. -/
theorem C4_counterexample_tab_in_term :
    isSpaceChar '\t' = true
    ∧ searchTerm "a\tb".data "x a\tb y".data = true
    ∧ searchTerm "a\tb".data "x a b y".data = false := by
  decide

/-- C4 amended: a record matches a pool iff the pool's case-insensitive
matcher finds at least one occurrence in the title and summary joined by a
single space, with internal space characters (U+0020) of a multi-word term
matching one-or-more whitespace characters (any other whitespace character
in a term matches only itself); pool `["reinforcement learning"]` matches
`reinforcement   learning` (extra spaces), a newline or tabs between the
words, and `Reinforcement Learning` (different case). -/
theorem C4_amended_space_flexible_matching :
    (∀ (pools : List (List String)) (r : Record),
        row_matches pools r
          = pools.all (fun pool => poolSearch pool ((r.title ++ " " ++ r.summary).data)))
    ∧ row_matches [["reinforcement learning"]] recSpaced = true
    ∧ row_matches [["reinforcement learning"]] recCased = true
    ∧ searchTerm "reinforcement learning".data "a reinforcement\nlearning b".data = true
    ∧ searchTerm "reinforcement learning".data "a reinforcement \t  learning b".data = true :=
  ⟨fun pools r => rfl, by decide, by decide, by decide, by decide⟩

theorem rawText_isError (r : RawRecord)
    (hbad : r.title = none ∨ r.summary = none) :
    ∃ e, rawText r = Except.error e := by
  obtain ⟨t, s⟩ := r
  cases t with
  | none => exact ⟨"KeyError: title", rfl⟩
  | some tv =>
    cases s with
    | none => exact ⟨"KeyError: summary", rfl⟩
    | some sv => simp at hbad

theorem row_matchesE_isError (pools : List (List String)) (r : RawRecord)
    (hbad : r.title = none ∨ r.summary = none) :
    ∃ e, row_matchesE pools r = Except.error e := by
  obtain ⟨e, he⟩ := rawText_isError r hbad
  exact ⟨e, by simp [row_matchesE, he]⟩

theorem applyRows_isError (pools : List (List String)) :
    ∀ (l : List RawRecord) (r : RawRecord), r ∈ l →
      (r.title = none ∨ r.summary = none) →
      ∃ e, applyRows pools l = Except.error e := by
  intro l
  induction l with
  | nil => intro r hr; exact absurd hr (List.not_mem_nil r)
  | cons a t ih =>
    intro r hr hbad
    rcases List.mem_cons.mp hr with heq | hmem
    · subst heq
      obtain ⟨e, he⟩ := row_matchesE_isError pools r hbad
      exact ⟨e, by simp [applyRows, he]⟩
    · cases hm : row_matchesE pools a with
      | error e => exact ⟨e, by simp [applyRows, hm]⟩
      | ok b =>
        obtain ⟨e, he⟩ := ih r hmem hbad
        exact ⟨e, by simp [applyRows, hm, he]⟩

/-- C8 counterexample: the well-formed first row matches the pool, but a
later row missing its `summary` makes the whole filter call fail with
`KeyError: summary` instead of treating that row as a non-match — the
exception aborts the batch, so the claim's per-record degradation does not
hold. -/
theorem C8_counterexample_keyerror_aborts_batch :
    row_matchesE [["RL"]] goodRaw = Except.ok true
    ∧ filterE [goodRaw, badRaw] [["RL"]] = Except.error "KeyError: summary" :=
  ⟨rfl, rfl⟩

/-- C8 amended: a record missing `title` or `summary` makes the whole
filter call raise (`KeyError` from the row access propagates out of the
per-row evaluation), aborting the processing of the entire batch; no
automatic non-match policy exists. -/
theorem C8_amended_missing_field_raises (records : List RawRecord)
    (pools : List (List String)) (r : RawRecord) (hr : r ∈ records)
    (hbad : r.title = none ∨ r.summary = none) :
    ∃ e, filterE records pools = Except.error e := by
  obtain ⟨e, he⟩ := applyRows_isError pools records r hr hbad
  refine ⟨e, ?_⟩
  have hne : records.isEmpty = false := by
    cases records with
    | nil => exact absurd hr (List.not_mem_nil r)
    | cons a t => rfl
  simp [filterE, hne, he]

/-- Witness for C8's amended statement at a concrete one-row batch whose
row lacks a summary. -/
theorem C8_amended_missing_field_raises_witness :
    ∃ e, filterE [badRaw] [["RL"]] = Except.error e :=
  C8_amended_missing_field_raises [badRaw] [["RL"]] badRaw (by decide)
    (Or.inr rfl)

/-- C10: with an empty pool set the conjunction over zero pools is
vacuously true, so every record is kept: the filter silently becomes the
identity and the PoolSet non-emptiness invariant is not enforced. -/
theorem C10_empty_poolset_keeps_all (records : List Record) :
    filter_dataframe_by_pools records [] = records := by
  rw [filter_dataframe_by_pools_eq_filter]
  exact List.filter_eq_self.mpr (fun r _ => rfl)

end ArxivMatching
